import Mathlib

/-!
Shallow embedding of the MP4toExplainText analysis pipeline core:
the job store (src/src/core/database.py), the analysis client and
response normalizer (src/src/core/gemini_api.py), and the scheduler
(src/src/core/video_processor.py).  Python dicts whose values are
strings or None are modelled as association lists over PyVal; SQLite
tables are modelled as lists of rows in insertion (rowid) order;
external library calls (json.loads, eval, re.findall) are modelled as
oracle parameters, since they are not code of this repository.
-/

namespace MP4Spec

/-- Model of the Python values that flow through the normalizer and the
job store: strings and None. -/
inductive PyVal where
  | vstr (s : String)
  | vnone
deriving DecidableEq

/-- Python truthiness for the modelled values: None and the empty string
are falsy, every other string is truthy. -/
def PyVal.truthy : PyVal → Bool
  | .vstr s => !(s == "")
  | .vnone => false

/-- Rendering of a value inside an f-string, as in
f"scene:\x7banalysis_result[key]\x7d". -/
def PyVal.render : PyVal → String
  | .vstr s => s
  | .vnone => "None"

/-- A Python dict of string keys, as an association list without
duplicate keys. -/
abbrev RawMap := List (String × PyVal)

/-- Membership test, modelling the Python expression (key in result). -/
def rmContains (m : RawMap) (k : String) : Bool :=
  m.any (fun p => p.1 == k)

/-- Lookup, modelling result[key] on a present key; absent keys give
None (the surrounding code only indexes present keys). -/
def rmGetD (m : RawMap) (k : String) : PyVal :=
  ((m.find? (fun p => p.1 == k)).map Prod.snd).getD .vnone

/-- Optional lookup on an association list. -/
def rmGet? (m : RawMap) (k : String) : Option PyVal :=
  (m.find? (fun p => p.1 == k)).map Prod.snd

/-- The status strings of src/src/core/constants.py (enum VideoStatus). -/
def validStatuses : List String :=
  ["UNPROCESSED", "PENDING", "PROCESSING", "FIX", "ERROR", "CANCELED"]

/-- VideoStatus.is_valid from constants.py. -/
def VideoStatus_is_valid (s : String) : Bool :=
  validStatuses.contains s

/-! ## Job store: videos table (database.py) -/

/-- One row of the videos table (the columns the core reads/writes). -/
structure VideoRow where
  id : Nat
  filePath : String
  fileName : String
  status : String
  progress : Int
deriving DecidableEq

/-- The videos table: rows in rowid order plus the AUTOINCREMENT
counter that yields the next fresh id. -/
structure VideosTable where
  rows : List VideoRow
  nextId : Nat
deriving DecidableEq

/-- Path(file_path).name: the last path component.  (Only the value of
the file_name column depends on this; no claim inspects it.) -/
def pyBaseName (p : String) : String :=
  ((p.split (fun c => c == '/' || c == '\\')).getLast?).getD ""

/-- The row inserted for a fresh path: INSERT INTO videos (file_path,
file_name) with the status column defaulting to UNPROCESSED and
progress defaulting to 0. -/
def freshVideoRow (t : VideosTable) (path : String) : VideoRow :=
  ⟨t.nextId, path, pyBaseName path, "UNPROCESSED", 0⟩

/-- Database.add_video (database.py:199).  The code INSERTs and, on the
UNIQUE(file_path) IntegrityError, SELECTs and returns the existing id;
on the table abstraction this is: return the existing row's id when the
path is present, otherwise append a fresh row and return its id. -/
def add_video (t : VideosTable) (path : String) : VideosTable × Nat :=
  match t.rows.find? (fun r => r.filePath == path) with
  | some r => (t, r.id)
  | none =>
      ({ rows := t.rows ++ [freshVideoRow t path], nextId := t.nextId + 1 },
       t.nextId)

/-! ## Field aliasing (Database._extract_fields_from_result) -/

/-- The field_mapping table of database.py:291, verbatim: canonical
field name paired with the priority-ordered accepted key spellings. -/
def field_mapping : List (String × List String) :=
  [("animation_name", ["Name of AnimationFile", "Animation File Name", "AnimationFileName", "animation_name", "filename"]),
   ("character_gender", ["character_gender", "gender", "Gender", "CharacterGender"]),
   ("character_age_group", ["character_age_group", "age_group", "Age", "AgeGroup"]),
   ("character_body_type", ["character_body_type", "body_type", "BodyType", "build"]),
   ("movement_description", ["Overall Movement Description", "movement_description", "Description", "MovementDescription"]),
   ("initial_pose", ["Initial Pose", "initial_pose", "StartPose", "start_pose"]),
   ("final_pose", ["Final Pose", "final_pose", "EndPose", "end_pose"]),
   ("appropriate_scene", ["Appropriate Scene", "appropriate_scene", "Scene", "scene"]),
   ("loopable", ["Loopable", "loopable", "can_loop", "IsLoopable"]),
   ("tempo_speed", ["Tempo Speed", "tempo_speed", "Tempo", "Speed"]),
   ("intensity_force", ["Intensity Force", "intensity_force", "Intensity", "Force"]),
   ("posture_detail", ["Posture Detail", "posture_detail", "Posture", "PostureDetails"]),
   ("param_01", ["param_01", "custom_param1", "CustomParam1", "param01"]),
   ("param_02", ["param_02", "custom_param2", "CustomParam2", "param02"]),
   ("param_03", ["param_03", "custom_param3", "CustomParam3", "param03"])]

/-- The inner loop of _extract_fields_from_result: for key in
possible_keys: if key in result: value = result[key]; break. -/
def firstPresentKey (m : RawMap) : List String → Option String
  | [] => none
  | k :: ks => if rmContains m k then some k else firstPresentKey m ks

/-- Value assigned to one canonical field: the value of the first
present alias key, or None when no alias key is present. -/
def extractFieldValue (m : RawMap) (ks : List String) : PyVal :=
  match firstPresentKey m ks with
  | some k => rmGetD m k
  | none => .vnone

/-- Database._extract_fields_from_result (database.py:258) on a dict
argument: one entry per canonical field, in field_mapping order. -/
def extract_fields_from_result (m : RawMap) : List (String × PyVal) :=
  field_mapping.map (fun fk => (fk.1, extractFieldValue m fk.2))

/-! ## Tag derivation (GeminiAPI.extract_tags) -/

/-- The alias lists of gemini_api.py:295 (note: these differ from
field_mapping both in spelling and in order). -/
def scene_keys : List String :=
  ["Appropriate Scene", "scene", "Scene", "appropriate_scene"]

/-- tempo_keys of gemini_api.py:296. -/
def tempo_keys : List String :=
  ["Tempo Speed", "tempo", "Speed", "tempo_speed"]

/-- intensity_keys of gemini_api.py:297. -/
def intensity_keys : List String :=
  ["Intensity Force", "intensity", "Force", "intensity_force"]

/-- loopable_keys of gemini_api.py:298. -/
def loopable_keys : List String :=
  ["Loopable", "loopable", "can_loop", "IsLoopable"]

/-- The tag loops of extract_tags: for key in keys: if key in result and
result[key]: append; break.  Returns the first key that is present with
a truthy value. -/
def firstTruthyKey (m : RawMap) : List String → Option String
  | [] => none
  | k :: ks =>
      if rmContains m k && (rmGetD m k).truthy then some k
      else firstTruthyKey m ks

/-- One namespaced tag from an alias list, or nothing. -/
def nsTag (ns : String) (m : RawMap) (ks : List String) : List String :=
  match firstTruthyKey m ks with
  | some k => [ns ++ ":" ++ (rmGetD m k).render]
  | none => []

/-- One character-trait tag, keyed by a single exact key
(gemini_api.py:325-332). -/
def charTag (ns : String) (key : String) (m : RawMap) : List String :=
  if rmContains m key && (rmGetD m key).truthy then
    [ns ++ ":" ++ (rmGetD m key).render]
  else []

/-- GeminiAPI.extract_tags (gemini_api.py:290). -/
def extract_tags (m : RawMap) : List String :=
  nsTag "scene" m scene_keys ++ nsTag "tempo" m tempo_keys
    ++ nsTag "intensity" m intensity_keys ++ nsTag "loopable" m loopable_keys
    ++ charTag "gender" "character_gender" m
    ++ charTag "age" "character_age_group" m
    ++ charTag "body" "character_body_type" m

/-! ## Response normalizer (GeminiAPI._parse_response) -/

/-- The characters matched by the regex class backslash-s in Python re
on str patterns (the same set for which str.isspace holds): the six
ASCII whitespace characters, the separator controls U+001C-U+001F, next
line U+0085, no-break space U+00A0, Ogham space mark U+1680, the
fixed-width spaces U+2000-U+200A, line separator U+2028, paragraph
separator U+2029, narrow no-break space U+202F, medium mathematical
space U+205F, and ideographic space U+3000. -/
def isPySpace (c : Char) : Bool :=
  c == ' ' || c == '\t' || c == '\n' || c == '\r' || c == '\x0b' || c == '\x0c'
    || c == '\x1c' || c == '\x1d' || c == '\x1e' || c == '\x1f'
    || c == '\x85' || c == '\xa0' || c == '\u1680'
    || (0x2000 ≤ c.toNat && c.toNat ≤ 0x200a)
    || c == '\u2028' || c == '\u2029' || c == '\u202f' || c == '\u205f'
    || c == '\u3000'

/-- Python str.strip(): remove leading and trailing whitespace. -/
def pyStrip (s : String) : String :=
  ⟨(((s.data.dropWhile isPySpace).reverse.dropWhile isPySpace).reverse)⟩

/-- The guard of the eval fallback (gemini_api.py:212): whether
re.match with the DOTALL pattern anchored as optional whitespace, an
opening brace, anything, a closing brace, optional whitespace succeeds
on the text. -/
def braceShape (s : String) : Bool :=
  match s.data.dropWhile isPySpace with
  | c :: rest =>
      c == '{' &&
        (match rest.reverse.dropWhile isPySpace with
         | d :: _ => d == '}'
         | [] => false)
  | [] => false

/-- The brace-delimited shape as the spec words it: optional
whitespace, an opening brace, anything, a closing brace, optional
whitespace. -/
def braceShapeSpec (s : String) : Prop :=
  ∃ w1 mid w2 : List Char,
    (∀ c ∈ w1, isPySpace c = true) ∧ (∀ c ∈ w2, isPySpace c = true) ∧
    s.data = w1 ++ '{' :: (mid ++ '}' :: w2)

/-- Python dict assignment result[k] = v on an association list:
overwrite the existing entry in place, else append. -/
def rmInsert (m : RawMap) (k : String) (v : PyVal) : RawMap :=
  if rmContains m k then
    m.map (fun p => if p.1 == k then (k, v) else p)
  else m ++ [(k, v)]

/-- The loop over re.findall matches (gemini_api.py:225): strip key and
value and assign into the result dict. -/
def buildRegexMap : RawMap → List (String × String) → RawMap
  | acc, [] => acc
  | acc, (k, v) :: rest =>
      buildRegexMap (rmInsert acc (pyStrip k) (.vstr (pyStrip v))) rest

/-- The external library calls of _parse_response, which are not code
of this repository: json.loads (some = parsed JSON object, none =
JSONDecodeError), eval followed by the isinstance dict check (some =
eval produced a dict, none = eval raised or produced a non-dict), and
re.findall of the key/value pattern. -/
structure Oracles where
  jsonLoads : String → Option RawMap
  pyEvalDict : String → Option RawMap
  findPairs : String → List (String × String)

/-- GeminiAPI._parse_response (gemini_api.py:197).  First component:
the returned dict.  Second component: the list of texts passed to eval
(the audit trail for the safety claim).  The function is total: the
layered fallback always produces a dict, and the outer except clause of
the source is unreachable because every fallible step sits inside its
own try. -/
def parse_response (o : Oracles) (text : String) : RawMap × List String :=
  match o.jsonLoads text with
  | some m => (m, [])
  | none =>
      if braceShape text then
        match o.pyEvalDict text with
        | some m => (m, [text])
        | none =>
            let r := buildRegexMap [] (o.findPairs text)
            if r.isEmpty then ([("raw_text", .vstr text)], [text])
            else (r, [text])
      else
        let r := buildRegexMap [] (o.findPairs text)
        if r.isEmpty then ([("raw_text", .vstr text)], [])
        else (r, [])

/-! ## Analysis client polling loop (GeminiAPI.wait_for_processing) -/

/-- retry_count of gemini_api.py:175. -/
def retryCount : Nat := 30

/-- retry_delay (seconds) of gemini_api.py:176. -/
def retryDelay : Nat := 5

/-- Outcome of the polling loop: normal return, the two raised
exceptions for provider-side failure and unexpected state, and the
TimeoutError carrying the elapsed seconds of its message. -/
inductive WaitOutcome where
  | ready
  | procFailed
  | unexpectedState (st : String)
  | timedOut (elapsedSeconds : Nat)
deriving DecidableEq

/-- The for-loop of wait_for_processing: poll i is the state name the
provider reports on the (i+1)-th poll; the second component counts the
polls performed. -/
def waitAux (poll : Nat → String) : Nat → Nat → WaitOutcome × Nat
  | i, 0 => (.timedOut (retryCount * retryDelay), i)
  | i, n + 1 =>
      let st := poll i
      if st == "ACTIVE" then (.ready, i + 1)
      else if st == "FAILED" then (.procFailed, i + 1)
      else if st != "PROCESSING" then (.unexpectedState st, i + 1)
      else waitAux poll (i + 1) n

/-- GeminiAPI.wait_for_processing (gemini_api.py:171): at most
retryCount polls at a fixed retryDelay interval. -/
def wait_for_processing (poll : Nat → String) : WaitOutcome × Nat :=
  waitAux poll 0 retryCount

/-! ## Job store: analysis_results and tags tables -/

/-- One row of the tags table. -/
structure TagRow where
  videoId : Nat
  tag : String
  source : String
deriving DecidableEq

/-- One row of the analysis_results table (result_json abstracted to
the parsed map carried into the canonical columns). -/
structure ResultRow where
  id : Nat
  videoId : Nat
  resultFields : List (String × PyVal)
  version : String
  createdAt : Nat
deriving DecidableEq

/-- The whole SQLite database plus a clock supplying
CURRENT_TIMESTAMP values for inserted rows. -/
structure DB where
  videos : VideosTable
  results : List ResultRow
  tags : List TagRow
  nextResultId : Nat
  clock : Nat
deriving DecidableEq

/-- Database.update_video_status (database.py:228) with a valid status
argument: update status and optionally progress of the matching row.
(Every call site passes a literal member of VideoStatus, so the
is_valid check never raises there.) -/
def update_video_status (db : DB) (vid : Nat) (status : String)
    (progress : Option Int) : DB :=
  { db with videos := { db.videos with rows := db.videos.rows.map (fun r =>
      if r.id == vid then
        { r with status := status, progress := progress.getD r.progress }
      else r) } }

/-- Database.add_tags (database.py:370): append one row per tag. -/
def add_tags (db : DB) (vid : Nat) (tags : List String) (source : String) : DB :=
  { db with tags := db.tags ++ tags.map (fun t => ⟨vid, t, source⟩) }

/-- Database.add_analysis_result (database.py:327): append one row with
the canonical columns computed by _extract_fields_from_result. -/
def add_analysis_result (db : DB) (vid : Nat) (result : RawMap)
    (version : String) : DB :=
  { db with
      results := db.results ++
        [⟨db.nextResultId, vid, extract_fields_from_result result, version,
          db.clock⟩],
      nextResultId := db.nextResultId + 1,
      clock := db.clock + 1 }

/-- The status of a video row, as read back from the table. -/
def video_status (db : DB) (vid : Nat) : Option String :=
  (db.videos.rows.find? (fun r => r.id == vid)).map VideoRow.status

/-! ## latestAttempt (Database.get_latest_analysis_result) -/

/-- Everything the query SELECT ... WHERE video_id = ? ORDER BY
created_at DESC LIMIT 1 guarantees about its result: none exactly when
the video has no rows, otherwise some row of that video with maximal
created_at.  SQLite leaves the choice among rows tied on created_at
undefined (no secondary ORDER BY key), so this is a relation, not a
function. -/
def latestAttemptAdmissible (rows : List ResultRow) (vid : Nat)
    (res : Option ResultRow) : Prop :=
  match res with
  | none => ∀ r ∈ rows, r.videoId ≠ vid
  | some a =>
      a ∈ rows ∧ a.videoId = vid ∧
        ∀ r ∈ rows, r.videoId = vid → r.createdAt ≤ a.createdAt

/-- Scan keeping the row with the strictly larger created_at (one
admissible implementation of the ORDER BY ... LIMIT 1 pick; ties keep
the earlier row, one of the behaviors the query allows). -/
def pickLatest (best : ResultRow) : List ResultRow → ResultRow
  | [] => best
  | r :: rest => pickLatest (if best.createdAt < r.createdAt then r else best) rest

/-- Database.get_latest_analysis_result (database.py:519) on the
analysis_results rows: restrict to the video, then take a row with
maximal created_at (none when there is no row). -/
def get_latest_analysis_result (rows : List ResultRow) (vid : Nat) :
    Option ResultRow :=
  match rows.filter (fun r => r.videoId == vid) with
  | [] => none
  | r :: rest => some (pickLatest r rest)

/-! ## Job scheduler (VideoProcessor, video_processor.py) -/

/-- The two callbacks process_video fires (there is no error callback
in the source). -/
inductive Event where
  | statusCb (vid : Nat) (status : String)
  | progressCb (vid : Nat) (percent : Nat)
deriving DecidableEq

/-- The scheduler state: the database, the _processing set (the lane
occupancy set) and the _cancel_requested set. -/
structure SchedState where
  db : DB
  processing : List Nat
  cancelRequested : List Nat
deriving DecidableEq

/-- Python set.add on the list model. -/
def setInsert (l : List Nat) (v : Nat) : List Nat :=
  if v ∈ l then l else l ++ [v]

/-- Python set.remove / set-discard on the list model. -/
def setRemove (l : List Nat) (v : Nat) : List Nat :=
  l.filter (fun x => x != v)

/-- VideoProcessor.cancel_processing (video_processor.py:144): record
the request only when the id is currently in the _processing set. -/
def cancel_processing (s : SchedState) (vid : Nat) : SchedState :=
  if vid ∈ s.processing then
    { s with cancelRequested := setInsert s.cancelRequested vid }
  else s

/-- How the entry section of process_video ends. -/
inductive EntryOutcome where
  | alreadyProcessing
  | enterLane (waited : Bool)
deriving DecidableEq

/-- The entry section of process_video (video_processor.py:42-61):
add_video, the already-in-flight rejection, and the PENDING
mark-then-wait when the lane is busy.  The wait loop itself only
sleeps: it mutates no state, so the state other coroutines see while
this submission waits is exactly the returned one; in particular the
waiting id is never in the _processing set. -/
def process_video_entry (s : SchedState) (path : String) :
    SchedState × List Event × Nat × EntryOutcome :=
  let av := add_video s.db.videos path
  let vid := av.2
  let s1 := { s with db := { s.db with videos := av.1 } }
  if vid ∈ s1.processing then (s1, [], vid, .alreadyProcessing)
  else if s1.processing.isEmpty then (s1, [], vid, .enterLane false)
  else
    ({ s1 with db := update_video_status s1.db vid "PENDING" none },
     [Event.statusCb vid "PENDING"], vid, .enterLane true)

/-- The admitted body of process_video (video_processor.py:62-131): add
to the lane, status PROCESSING/0, run the analysis (the analyze
argument is the outcome of gemini.analyze_video on the executor), the
cancellation checkpoint, persistence, and the inner except/finally.
The third component is the outcome as seen after the finally block:
ok b for a normal return, error e for the re-raised exception. -/
def process_video_inner (s : SchedState) (vid : Nat)
    (analyze : Except String RawMap) :
    SchedState × List Event × Except String Bool :=
  let s1 := { s with processing := setInsert s.processing vid }
  let s2 := { s1 with db := update_video_status s1.db vid "PROCESSING" (some 0) }
  let ev0 := [Event.statusCb vid "PROCESSING", Event.progressCb vid 0]
  match analyze with
  | .error e =>
      let s3 := { s2 with db := update_video_status s2.db vid "ERROR" none }
      let s4 := { s3 with processing := setRemove s3.processing vid }
      (s4, ev0 ++ [Event.statusCb vid "ERROR"], .error e)
  | .ok result =>
      if vid ∈ s2.cancelRequested then
        let s3 := { s2 with db := update_video_status s2.db vid "CANCELED" none }
        let s4 := { s3 with cancelRequested := setRemove s3.cancelRequested vid }
        let s5 := { s4 with processing := setRemove s4.processing vid }
        (s5, ev0 ++ [Event.statusCb vid "CANCELED"], .ok false)
      else
        let s3 := { s2 with db := update_video_status s2.db vid "PROCESSING" (some 50) }
        let s4 := { s3 with db := add_tags s3.db vid (extract_tags result) "auto" }
        let s5 := { s4 with db := add_analysis_result s4.db vid result "1.0" }
        let s6 := { s5 with db := update_video_status s5.db vid "FIX" (some 100) }
        let s7 := { s6 with processing := setRemove s6.processing vid }
        (s7, ev0
          ++ [Event.statusCb vid "PROCESSING", Event.progressCb vid 50,
              Event.statusCb vid "FIX", Event.progressCb vid 100], .ok true)

/-- The admitted body of process_video together with its outermost
except clause (video_processor.py:132-134), which catches every
exception, logs it, and returns False; the coroutine therefore always
returns normally to its caller. -/
def process_video_run (s : SchedState) (vid : Nat)
    (analyze : Except String RawMap) :
    SchedState × List Event × Except String Bool :=
  let r := process_video_inner s vid analyze
  (r.1, r.2.1,
    match r.2.2 with
    | .error _ => .ok false
    | .ok b => .ok b)

/-! ## Concrete fixtures used by counterexamples and witnesses -/

/-- A one-video database for concrete runs. -/
def dbEx : DB :=
  { videos := { rows := [⟨1, "/v.mp4", "v.mp4", "UNPROCESSED", 0⟩], nextId := 2 },
    results := [], tags := [], nextResultId := 1, clock := 0 }

/-- Scheduler state with a free lane and no cancellation requests. -/
def sEx : SchedState :=
  { db := dbEx, processing := [], cancelRequested := [] }

/-- Scheduler state in which cancellation of video 1 is requested. -/
def sExCancel : SchedState :=
  { db := dbEx, processing := [], cancelRequested := [1] }

/-- The raw map the dict lookup refutation of the tag claim uses: the
canonical character_gender field resolves via the alias key gender, but
extract_tags only consults the exact key character_gender. -/
def cexGenderMap : RawMap := [("gender", PyVal.vstr "male")]

/-- The raw text of the worked normalizer example in the spec. -/
def exRawText : String :=
  "\x7b\"Appropriate Scene\": \"combat\", \"character_gender\": \"male\"\x7d"

/-- The JSON object that text denotes. -/
def exMap : RawMap :=
  [("Appropriate Scene", PyVal.vstr "combat"),
   ("character_gender", PyVal.vstr "male")]

/-- An oracle triple on which every parse layer fails. -/
def failingOracles : Oracles :=
  { jsonLoads := fun _ => none, pyEvalDict := fun _ => none,
    findPairs := fun _ => [] }

/-- An oracle triple whose json.loads knows exactly the worked example
text. -/
def exOracles : Oracles :=
  { jsonLoads := fun s => if s == exRawText then some exMap else none,
    pyEvalDict := fun _ => none, findPairs := fun _ => [] }

/-- The admissibility relation is decidable, so concrete tables can be
checked by evaluation. -/
instance latestAttemptAdmissibleDec (rows : List ResultRow) (vid : Nat) :
    (res : Option ResultRow) → Decidable (latestAttemptAdmissible rows vid res)
  | none => inferInstanceAs (Decidable (∀ r ∈ rows, r.videoId ≠ vid))
  | some a => inferInstanceAs (Decidable (a ∈ rows ∧ a.videoId = vid ∧
      ∀ r ∈ rows, r.videoId = vid → r.createdAt ≤ a.createdAt))

/-- Two attempts of video 7 inserted in id order that share the maximal
created_at value. -/
def tieRow1 : ResultRow := ⟨1, 7, [], "1.0", 10⟩

/-- The later-inserted of the two tied attempts. -/
def tieRow2 : ResultRow := ⟨2, 7, [], "1.0", 10⟩

/-- The analysis_results table holding the tie. -/
def tieRows : List ResultRow := [tieRow1, tieRow2]

/-! ## Helper lemmas -/

/-- The alias loop of _extract_fields_from_result returns the first
alias key present in the map. -/
theorem firstPresentKey_eq_find (m : RawMap) :
    ∀ ks : List String,
      firstPresentKey m ks = ks.find? (fun k => rmContains m k) := by
  intro ks
  induction ks with
  | nil => rfl
  | cons k ks ih =>
      cases h : rmContains m k <;>
        simp [firstPresentKey, List.find?_cons, h, ih]

/-- The tag loop of extract_tags returns the first alias key present
with a truthy value. -/
theorem firstTruthyKey_eq_find (m : RawMap) :
    ∀ ks : List String,
      firstTruthyKey m ks
        = ks.find? (fun k => rmContains m k && (rmGetD m k).truthy) := by
  intro ks
  induction ks with
  | nil => rfl
  | cons k ks ih =>
      cases h : rmContains m k && (rmGetD m k).truthy <;>
        simp [firstTruthyKey, List.find?_cons, h, ih]

/-- Looking up a field in a keyed map built over a list with distinct
first components finds that field's entry. -/
theorem rmGet?_alias_map (m : RawMap) :
    ∀ (l : List (String × List String)) (f : String) (ks : List String),
      (f, ks) ∈ l → (l.map Prod.fst).Nodup →
      rmGet? (l.map (fun fk => (fk.1, extractFieldValue m fk.2))) f
        = some (extractFieldValue m ks) := by
  intro l
  induction l with
  | nil => intro f ks h _; cases h
  | cons a l ih =>
      intro f ks hmem hnd
      rcases List.mem_cons.mp hmem with heq | htail
      · cases heq
        simp [rmGet?, List.find?_cons]
      · have hfst : a.1 ∉ l.map Prod.fst := (List.nodup_cons.mp hnd).1
        have hf : f ∈ l.map Prod.fst := List.mem_map.mpr ⟨(f, ks), htail, rfl⟩
        have hne : (a.1 == f) = false := by
          rw [beq_eq_false_iff_ne]
          intro h
          exact hfst (h ▸ hf)
        have := ih f ks htail (List.nodup_cons.mp hnd).2
        simpa [rmGet?, List.find?_cons, hne] using this

/-- Row-level form of the status update: looking up the updated row
yields the old lookup with its status rewritten. -/
theorem find?_status_map (vid : Nat) (st : String) (p : Option Int) :
    ∀ rows : List VideoRow,
      (((rows.map (fun r => if r.id == vid then
            { r with status := st, progress := p.getD r.progress } else r)).find?
          (fun r => r.id == vid)).map VideoRow.status)
        = ((rows.find? (fun r => r.id == vid)).map VideoRow.status).map
            (fun _ => st) := by
  intro rows
  induction rows with
  | nil => rfl
  | cons r rest ih =>
      by_cases h : r.id = vid
      · simp [List.find?_cons, h, -List.find?_map]
      · simp [List.find?_cons, h, -List.find?_map] at ih ⊢
        exact ih

/-- Updating a video's status rewrites exactly that row's status. -/
theorem video_status_update_self (db : DB) (vid : Nat) (st : String)
    (p : Option Int) :
    video_status (update_video_status db vid st p) vid
      = (video_status db vid).map (fun _ => st) := by
  obtain ⟨⟨rows, nid⟩, res, tg, nr, c⟩ := db
  exact find?_status_map vid st p rows

/-- add_tags does not touch the videos table. -/
theorem video_status_add_tags (db : DB) (vid : Nat) (ts : List String)
    (src : String) (w : Nat) :
    video_status (add_tags db vid ts src) w = video_status db w := rfl

/-- add_analysis_result does not touch the videos table. -/
theorem video_status_add_analysis_result (db : DB) (vid : Nat) (r : RawMap)
    (ver : String) (w : Nat) :
    video_status (add_analysis_result db vid r ver) w = video_status db w := rfl

/-- Removing an id from the lane set really removes it. -/
theorem setRemove_self_not_mem (l : List Nat) (v : Nat) :
    v ∉ setRemove l v := by
  simp [setRemove, List.mem_filter]

/-- The scan of pickLatest returns its seed or a scanned row. -/
theorem pickLatest_mem :
    ∀ (l : List ResultRow) (best : ResultRow),
      pickLatest best l = best ∨ pickLatest best l ∈ l := by
  intro l
  induction l with
  | nil => intro best; left; rfl
  | cons r rest ih =>
      intro best
      rw [pickLatest]
      rcases ih (if best.createdAt < r.createdAt then r else best) with h | h
      · rw [h]
        by_cases hc : best.createdAt < r.createdAt
        · right; simp [hc]
        · left; simp [hc]
      · right; exact List.mem_cons_of_mem _ h

/-- The scan of pickLatest dominates its seed and every scanned row on
created_at. -/
theorem pickLatest_ge :
    ∀ (l : List ResultRow) (best : ResultRow),
      best.createdAt ≤ (pickLatest best l).createdAt
      ∧ ∀ x ∈ l, x.createdAt ≤ (pickLatest best l).createdAt := by
  intro l
  induction l with
  | nil => intro best; exact ⟨Nat.le_refl _, by simp⟩
  | cons r rest ih =>
      intro best
      rw [pickLatest]
      obtain ⟨h1, h2⟩ := ih (if best.createdAt < r.createdAt then r else best)
      constructor
      · refine Nat.le_trans ?_ h1
        by_cases hc : best.createdAt < r.createdAt <;> simp [hc]
        exact Nat.le_of_lt hc
      · intro x hx
        rcases List.mem_cons.mp hx with rfl | hx
        · refine Nat.le_trans ?_ h1
          by_cases hc : best.createdAt < x.createdAt <;> simp [hc]
          exact Nat.le_of_not_lt hc
        · exact h2 x hx

/-- The polling loop performs at most its fuel many polls beyond the
starting index. -/
theorem waitAux_count_le (poll : Nat → String) :
    ∀ (n i : Nat), (waitAux poll i n).2 ≤ i + n := by
  intro n
  induction n with
  | zero => intro i; simp [waitAux]
  | succ n ih =>
      intro i
      simp only [waitAux]
      split
      · show i + 1 ≤ i + (n + 1)
        omega
      · split
        · show i + 1 ≤ i + (n + 1)
          omega
        · split
          · show i + 1 ≤ i + (n + 1)
            omega
          · have := ih (i + 1)
            omega

/-- A poll observing PROCESSING consumes one unit of fuel and moves to
the next index. -/
theorem waitAux_skip (poll : Nat → String) (i n : Nat)
    (h : poll i = "PROCESSING") :
    waitAux poll i (n + 1) = waitAux poll (i + 1) n := by
  rw [waitAux]
  simp [h]

/-- A run of k PROCESSING polls advances the loop k steps. -/
theorem waitAux_advance (poll : Nat → String) :
    ∀ (k n i : Nat), k ≤ n →
      (∀ j, j < k → poll (i + j) = "PROCESSING") →
      waitAux poll i n = waitAux poll (i + k) (n - k) := by
  intro k
  induction k with
  | zero => intro n i _ _; simp
  | succ k ih =>
      intro n i hkn hproc
      obtain ⟨m, rfl⟩ : ∃ m, n = m + 1 := ⟨n - 1, by omega⟩
      rw [waitAux_skip poll i m (by simpa using hproc 0 (by omega))]
      have hrec := ih m (i + 1) (by omega) (fun j hj => by
        have := hproc (j + 1) (by omega)
        have harg : i + (j + 1) = i + 1 + j := by omega
        rwa [harg] at this)
      have e1 : i + 1 + k = i + (k + 1) := by omega
      have e2 : m - k = m + 1 - (k + 1) := by omega
      rw [e1, e2] at hrec
      exact hrec

/-- A text accepted by the shape guard decomposes as whitespace, an
opening brace, an arbitrary middle, a closing brace, whitespace. -/
theorem braceShapeSpec_of_braceShape (s : String)
    (h : braceShape s = true) : braceShapeSpec s := by
  unfold braceShape at h
  cases hdw : s.data.dropWhile isPySpace with
  | nil => rw [hdw] at h; cases h
  | cons c rest =>
      rw [hdw] at h
      rcases Bool.and_eq_true_iff.mp h with ⟨hc, hrest⟩
      have hc' : c = '{' := by
        have := of_decide_eq_true hc
        exact this
      cases hrev : rest.reverse.dropWhile isPySpace with
      | nil => rw [hrev] at hrest; cases hrest
      | cons d tail =>
          rw [hrev] at hrest
          have hd' : d = '}' := of_decide_eq_true hrest
          have h1 : s.data = s.data.takeWhile isPySpace ++ (c :: rest) := by
            conv_lhs => rw [← List.takeWhile_append_dropWhile isPySpace s.data]
            rw [hdw]
          have h2 : rest.reverse
              = rest.reverse.takeWhile isPySpace ++ (d :: tail) := by
            conv_lhs => rw [← List.takeWhile_append_dropWhile isPySpace rest.reverse]
            rw [hrev]
          set W := rest.reverse.takeWhile isPySpace with hW
          have h3 : rest = tail.reverse ++ d :: W.reverse := by
            have h2' := congrArg List.reverse h2
            rw [List.reverse_reverse] at h2'
            rw [h2']
            simp [List.reverse_append]
          refine ⟨s.data.takeWhile isPySpace, tail.reverse, W.reverse,
            ?_, ?_, ?_⟩
          · intro x hx; exact List.mem_takeWhile_imp hx
          · intro x hx
            rw [List.mem_reverse] at hx
            rw [hW] at hx
            exact List.mem_takeWhile_imp hx
          · conv_lhs => rw [h1]
            rw [h3, hc', hd']

/-! ## Claim theorems -/

/-- Claim C1: submitting the same file path twice yields the same video
id and does not create a second Video row; add_video inserts a new row
with a fresh id only when no row with that file_path exists, and
otherwise returns the id of the existing row with that file_path. -/
theorem add_video_upsert (t : VideosTable) (p : String) :
    (add_video (add_video t p).1 p = ((add_video t p).1, (add_video t p).2))
    ∧ (t.rows.find? (fun r => r.filePath == p) = none →
        (add_video t p).1.rows = t.rows ++ [freshVideoRow t p]
        ∧ (add_video t p).2 = t.nextId
        ∧ ((∀ r ∈ t.rows, r.id < t.nextId) →
            ∀ r ∈ t.rows, r.id ≠ (add_video t p).2))
    ∧ (∀ r, t.rows.find? (fun r2 => r2.filePath == p) = some r →
        (add_video t p).1 = t ∧ (add_video t p).2 = r.id)
    ∧ ((∀ r ∈ t.rows, r.id < t.nextId) →
        ∀ r ∈ (add_video t p).1.rows, r.id < (add_video t p).1.nextId) := by
  cases hf : t.rows.find? (fun r => r.filePath == p) with
  | none =>
      have hstep : add_video t p
          = ({ rows := t.rows ++ [freshVideoRow t p], nextId := t.nextId + 1 },
             t.nextId) := by
        rw [add_video, hf]
      refine ⟨?_, ?_, ?_, ?_⟩
      · rw [hstep]
        simp [add_video, List.find?_append, hf, freshVideoRow, List.find?_cons]
      · intro _
        refine ⟨by rw [hstep], by rw [hstep], ?_⟩
        intro hwf r hr
        rw [hstep]
        exact Nat.ne_of_lt (hwf r hr)
      · intro r hr
        exact Option.noConfusion hr
      · intro hwf r hr
        rw [hstep] at hr ⊢
        dsimp only at hr ⊢
        rcases List.mem_append.mp hr with h | h
        · exact Nat.lt_trans (hwf r h) (Nat.lt_succ_self _)
        · rw [List.mem_singleton.mp h]
          exact Nat.lt_succ_self _
  | some r0 =>
      have hstep : add_video t p = (t, r0.id) := by
        rw [add_video, hf]
      refine ⟨?_, ?_, ?_, ?_⟩
      · rw [hstep]
        dsimp only
        rw [add_video, hf]
      · intro hnone
        exact Option.noConfusion hnone
      · intro r hr
        have heq : r0 = r := Option.some.inj hr
        rw [hstep, heq]
        exact ⟨rfl, rfl⟩
      · intro hwf r hr
        rw [hstep] at hr ⊢
        exact hwf r hr

/-- Witness for C1: a fresh path gets the fresh id 2, resubmitting it
returns the same id with the table unchanged, and the path already in
the table returns its existing id 1. -/
theorem add_video_upsert_witness :
    (add_video dbEx.videos "/a.mp4").2 = 2
    ∧ add_video (add_video dbEx.videos "/a.mp4").1 "/a.mp4"
        = ((add_video dbEx.videos "/a.mp4").1, (add_video dbEx.videos "/a.mp4").2)
    ∧ (add_video dbEx.videos "/v.mp4").1 = dbEx.videos
    ∧ (add_video dbEx.videos "/v.mp4").2 = 1 := by
  have hfresh := (add_video_upsert dbEx.videos "/a.mp4").2.1 (by decide)
  have hdup := (add_video_upsert dbEx.videos "/v.mp4").2.2.1
    ⟨1, "/v.mp4", "v.mp4", "UNPROCESSED", 0⟩ (by decide)
  exact ⟨hfresh.2.1, (add_video_upsert dbEx.videos "/a.mp4").1, hdup.1, hdup.2⟩

/-- Claim C2 counterexample: for the concrete admitted job on video 1
whose analysis raises, the coroutine returns Except.ok false to its
caller — the exception is re-raised only as far as process_video's own
outermost except clause and is NOT forwarded to the caller, refuting
the claim's "re-raised/forwarded to the caller's error channel rather
than swallowed" (the ERROR status and the lane release do hold). -/
theorem process_video_error_swallowed :
    (process_video_run sEx 1 (Except.error "boom")).2.2 = Except.ok false
    ∧ (process_video_run sEx 1 (Except.error "boom")).2.2 ≠ Except.error "boom"
    ∧ (process_video_inner sEx 1 (Except.error "boom")).2.2
        = Except.error "boom"
    ∧ video_status (process_video_run sEx 1 (Except.error "boom")).1.db 1
        = some "ERROR"
    ∧ (1 : Nat) ∉ (process_video_run sEx 1 (Except.error "boom")).1.processing := by
  refine ⟨rfl, ?_, rfl, by decide, by decide⟩
  intro hcontra
  exact Except.noConfusion hcontra

/-- Claim C2 (amended): when the processing body raises after admission,
the Scheduler sets the video's status to ERROR, removes the id from the
lane regardless of outcome, re-raises the exception to process_video's
own outermost handler, and that handler swallows it: the call returns
False normally, no row is persisted, and no error reaches the caller
(the source has no error callback). -/
theorem process_video_error_path (s : SchedState) (vid : Nat) (e : String)
    (hrow : video_status s.db vid ≠ none) :
    video_status (process_video_run s vid (Except.error e)).1.db vid
        = some "ERROR"
    ∧ vid ∉ (process_video_run s vid (Except.error e)).1.processing
    ∧ (process_video_run s vid (Except.error e)).2.2 = Except.ok false
    ∧ (process_video_inner s vid (Except.error e)).2.2 = Except.error e
    ∧ (process_video_run s vid (Except.error e)).1.db.results = s.db.results
    ∧ (process_video_run s vid (Except.error e)).1.db.tags = s.db.tags
    ∧ (process_video_run s vid (Except.error e)).2.1
        = [Event.statusCb vid "PROCESSING", Event.progressCb vid 0,
           Event.statusCb vid "ERROR"] := by
  obtain ⟨st0, hst0⟩ := Option.ne_none_iff_exists'.mp hrow
  refine ⟨?_, ?_, rfl, rfl, rfl, rfl, rfl⟩
  · show video_status
        (update_video_status
          (update_video_status s.db vid "PROCESSING" (some 0)) vid "ERROR" none)
        vid = some "ERROR"
    rw [video_status_update_self, video_status_update_self, hst0]
    rfl
  · show vid ∉ setRemove (setInsert s.processing vid) vid
    exact setRemove_self_not_mem _ _

/-- Witness for the amended C2. -/
theorem process_video_error_path_witness :
    video_status (process_video_run sEx 1 (Except.error "x")).1.db 1
      = some "ERROR" :=
  (process_video_error_path sEx 1 "x" (by decide)).1

/-- Claim C3: when the cancellation flag for the video is set at the
checkpoint after the analysis returns, process_video sets status
CANCELED, clears the flag, persists no AnalysisAttempt row and no Tag
rows, releases the lane, and returns False without reaching the success
path (the only flag check sits between the analysis return and
persistence, so the events show no persistence-side callbacks). -/
theorem process_video_cancel_checkpoint (s : SchedState) (vid : Nat)
    (result : RawMap) (hflag : vid ∈ s.cancelRequested)
    (hrow : video_status s.db vid ≠ none) :
    video_status (process_video_run s vid (Except.ok result)).1.db vid
        = some "CANCELED"
    ∧ vid ∉ (process_video_run s vid (Except.ok result)).1.cancelRequested
    ∧ (process_video_run s vid (Except.ok result)).1.db.results = s.db.results
    ∧ (process_video_run s vid (Except.ok result)).1.db.tags = s.db.tags
    ∧ (process_video_run s vid (Except.ok result)).2.2 = Except.ok false
    ∧ vid ∉ (process_video_run s vid (Except.ok result)).1.processing
    ∧ (process_video_run s vid (Except.ok result)).2.1
        = [Event.statusCb vid "PROCESSING", Event.progressCb vid 0,
           Event.statusCb vid "CANCELED"] := by
  obtain ⟨st0, hst0⟩ := Option.ne_none_iff_exists'.mp hrow
  have hinner : process_video_inner s vid (Except.ok result)
      = ({ db := update_video_status
              (update_video_status s.db vid "PROCESSING" (some 0))
              vid "CANCELED" none,
           processing := setRemove (setInsert s.processing vid) vid,
           cancelRequested := setRemove s.cancelRequested vid },
         [Event.statusCb vid "PROCESSING", Event.progressCb vid 0,
          Event.statusCb vid "CANCELED"], Except.ok false) := by
    simp only [process_video_inner]
    rw [if_pos hflag]
    rfl
  refine ⟨?_, ?_, ?_, ?_, ?_, ?_, ?_⟩ <;>
    simp only [process_video_run, hinner] <;>
    first
      | rfl
      | exact setRemove_self_not_mem _ _
      | (rw [video_status_update_self, video_status_update_self, hst0]; rfl)

/-- Witness for C3. -/
theorem process_video_cancel_checkpoint_witness :
    video_status (process_video_run sExCancel 1 (Except.ok exMap)).1.db 1
        = some "CANCELED"
    ∧ (process_video_run sExCancel 1 (Except.ok exMap)).1.db.results
        = sExCancel.db.results := by
  have h := process_video_cancel_checkpoint sExCancel 1 exMap
    (by decide) (by decide)
  exact ⟨h.1, h.2.2.1⟩

/-- Claim C4: wait_for_processing polls at most 30 times at the fixed
5-second interval; a poll observing ACTIVE returns successfully, a poll
observing FAILED or any state other than ACTIVE/FAILED/PROCESSING
raises immediately without further polls, and a full budget of
PROCESSING polls raises the timeout (with 30 times 5 elapsed seconds)
rather than looping forever. -/
theorem wait_for_processing_policy (poll : Nat → String) :
    ((wait_for_processing poll).2 ≤ retryCount)
    ∧ ((∀ i, i < retryCount → poll i = "PROCESSING") →
        wait_for_processing poll
          = (.timedOut (retryCount * retryDelay), retryCount))
    ∧ (∀ k, k < retryCount → (∀ i, i < k → poll i = "PROCESSING") →
        (poll k = "ACTIVE" → wait_for_processing poll = (.ready, k + 1))
        ∧ (poll k = "FAILED" →
            wait_for_processing poll = (.procFailed, k + 1))
        ∧ (poll k ≠ "ACTIVE" → poll k ≠ "FAILED" → poll k ≠ "PROCESSING" →
            wait_for_processing poll
              = (.unexpectedState (poll k), k + 1))) := by
  refine ⟨?_, ?_, ?_⟩
  · have := waitAux_count_le poll retryCount 0
    simpa [wait_for_processing] using this
  · intro hall
    rw [wait_for_processing,
      waitAux_advance poll retryCount retryCount 0 (Nat.le_refl _)
        (fun j hj => by simpa using hall j hj),
      Nat.sub_self, Nat.zero_add, waitAux]
  · intro k hk hpre
    have hadv : waitAux poll 0 retryCount = waitAux poll k (retryCount - k) := by
      have := waitAux_advance poll k retryCount 0 (Nat.le_of_lt hk)
        (fun j hj => by simpa using hpre j hj)
      simpa using this
    obtain ⟨m, hm⟩ : ∃ m, retryCount - k = m + 1 :=
      ⟨retryCount - k - 1, by omega⟩
    refine ⟨?_, ?_, ?_⟩
    · intro hA
      rw [wait_for_processing, hadv, hm, waitAux]
      simp [hA]
    · intro hF
      rw [wait_for_processing, hadv, hm, waitAux]
      simp [hF]
    · intro hA hF hP
      rw [wait_for_processing, hadv, hm, waitAux]
      simp [hA, hF, hP]

/-- Witness for C4: an always-PROCESSING provider times out after 30
polls, and an immediately-ACTIVE provider returns after one poll. -/
theorem wait_for_processing_policy_witness :
    wait_for_processing (fun _ => "PROCESSING") = (.timedOut 150, 30)
    ∧ wait_for_processing (fun _ => "ACTIVE") = (.ready, 1) := by
  constructor
  · exact (wait_for_processing_policy (fun _ => "PROCESSING")).2.1
      (fun i _ => rfl)
  · exact ((wait_for_processing_policy (fun _ => "ACTIVE")).2.2 0 (by decide)
      (fun i hi => absurd hi (by omega))).1 rfl

/-- Claim C6: the eval-based literal parse runs only on text matching
the brace-delimited shape; on any input not of that shape (and for any
behavior of the external parsers) nothing is ever passed to eval. -/
theorem parse_response_eval_guarded (o : Oracles) (s : String)
    (h : ¬ braceShapeSpec s) :
    (parse_response o s).2 = [] := by
  have hb : braceShape s = false := by
    cases hbs : braceShape s
    · rfl
    · exact absurd (braceShapeSpec_of_braceShape s hbs) h
  cases hj : o.jsonLoads s with
  | some m => simp [parse_response, hj]
  | none =>
      simp only [parse_response, hj, hb, Bool.false_eq_true, if_false]
      split <;> rfl

/-- Witness for C6: a braceless input is never evaluated. -/
theorem parse_response_eval_guarded_witness :
    (parse_response failingOracles "hello").2 = [] := by
  refine parse_response_eval_guarded failingOracles "hello" ?_
  rintro ⟨w1, mid, w2, _, _, heq⟩
  have hmem : ('{' : Char) ∈ "hello".data := by
    rw [heq]
    simp
  exact absurd hmem (by decide)

/-- Claim C7: field aliasing assigns each canonical field the value of
the first key of its priority-ordered alias list that is present in the
raw map — even when that value is empty — and null when no alias key is
present; absent fields get no non-null default. -/
theorem extract_fields_first_alias (m : RawMap) (f : String)
    (ks : List String) (hmem : (f, ks) ∈ field_mapping) :
    (ks.find? (fun k => rmContains m k) = none →
        rmGet? (extract_fields_from_result m) f = some PyVal.vnone)
    ∧ (∀ k, ks.find? (fun k => rmContains m k) = some k →
        rmGet? (extract_fields_from_result m) f = some (rmGetD m k)) := by
  have hnd : (field_mapping.map Prod.fst).Nodup := by decide
  have hbase := rmGet?_alias_map m field_mapping f ks hmem hnd
  constructor
  · intro hnone
    rw [extract_fields_from_result, hbase, extractFieldValue,
      firstPresentKey_eq_find, hnone]
  · intro k hk
    rw [extract_fields_from_result, hbase, extractFieldValue,
      firstPresentKey_eq_find, hk]

/-- Witness for C7: on the worked example map, the canonical scene
field takes the value of its first present alias, an absent field is
null, and a present-but-empty value is still taken. -/
theorem extract_fields_first_alias_witness :
    rmGet? (extract_fields_from_result exMap) "appropriate_scene"
        = some (rmGetD exMap "Appropriate Scene")
    ∧ rmGet? (extract_fields_from_result exMap) "loopable"
        = some PyVal.vnone
    ∧ rmGet? (extract_fields_from_result [("scene", PyVal.vstr "")])
          "appropriate_scene"
        = some (PyVal.vstr "") := by
  refine ⟨?_, ?_, ?_⟩
  · exact (extract_fields_first_alias exMap "appropriate_scene"
      ["Appropriate Scene", "appropriate_scene", "Scene", "scene"]
      (by decide)).2 "Appropriate Scene" (by decide)
  · exact (extract_fields_first_alias exMap "loopable"
      ["Loopable", "loopable", "can_loop", "IsLoopable"] (by decide)).1
      (by decide)
  · exact (extract_fields_first_alias [("scene", PyVal.vstr "")]
      "appropriate_scene"
      ["Appropriate Scene", "appropriate_scene", "Scene", "scene"]
      (by decide)).2 "scene" (by decide)

/-- Claim C8 counterexample: on the map whose only key is the alias
gender, the canonical character_gender field is non-null ("male"), yet
extract_tags — which consults only the exact key character_gender —
emits no tag at all, refuting "a gender: tag is emitted for every
non-null corresponding canonical field". -/
theorem extract_tags_canonical_mismatch :
    rmGet? (extract_fields_from_result cexGenderMap) "character_gender"
        = some (PyVal.vstr "male")
    ∧ extract_tags cexGenderMap = [] := by
  constructor
  · decide
  · decide

/-- Claim C8 (amended): extract_tags emits each namespaced tag from the
first key of its own alias list that is present with a truthy
(non-empty) value; the gender/age/body tags use only the exact
character keys.  In particular the worked example raw text parses to
the canonical fields scene=combat and character_gender=male and yields
exactly the tags scene:combat and gender:male. -/
theorem extract_tags_own_aliases (o : Oracles)
    (hjson : o.jsonLoads exRawText = some exMap) :
    (∀ (m : RawMap) (ks : List String),
        firstTruthyKey m ks
          = ks.find? (fun k => rmContains m k && (rmGetD m k).truthy))
    ∧ parse_response o exRawText = (exMap, [])
    ∧ extract_tags exMap = ["scene:combat", "gender:male"]
    ∧ rmGet? (extract_fields_from_result exMap) "appropriate_scene"
        = some (PyVal.vstr "combat")
    ∧ rmGet? (extract_fields_from_result exMap) "character_gender"
        = some (PyVal.vstr "male") := by
  refine ⟨firstTruthyKey_eq_find, ?_, by decide, by decide, by decide⟩
  simp [parse_response, hjson]

/-- Witness for the amended C8. -/
theorem extract_tags_own_aliases_witness :
    parse_response exOracles exRawText = (exMap, [])
    ∧ extract_tags exMap = ["scene:combat", "gender:male"] := by
  have h := extract_tags_own_aliases exOracles (by decide)
  exact ⟨h.2.1, h.2.2.1⟩

/-- Claim C9 counterexample: with two attempts of video 7 tied on the
maximal created_at, the earlier-inserted attempt is an admissible result
of the ORDER BY created_at DESC LIMIT 1 query (which has no secondary
sort key), yet the most recently inserted attempt is the other row —
refuting "the one returned is the most recently inserted". -/
theorem latest_attempt_tie_unspecified :
    latestAttemptAdmissible tieRows 7 (some tieRow1)
    ∧ (tieRows.filter (fun r => r.videoId == 7)).getLast? = some tieRow2
    ∧ tieRow1 ≠ tieRow2 := by
  refine ⟨by decide, by decide, by decide⟩

/-- Claim C9 (amended): latestAttempt returns none exactly when the
video has no attempts, and otherwise returns one of that video's
attempts whose created_at is maximal; which of several attempts tied on
the maximal created_at is returned is not determined by the query. -/
theorem get_latest_analysis_result_admissible (rows : List ResultRow)
    (vid : Nat) :
    latestAttemptAdmissible rows vid (get_latest_analysis_result rows vid) := by
  cases hf : rows.filter (fun r => r.videoId == vid) with
  | nil =>
      rw [get_latest_analysis_result, hf]
      show ∀ r ∈ rows, r.videoId ≠ vid
      intro r hr hv
      have hmem : r ∈ rows.filter (fun r => r.videoId == vid) :=
        List.mem_filter.mpr ⟨hr, by simp [hv]⟩
      rw [hf] at hmem
      cases hmem
  | cons a l =>
      rw [get_latest_analysis_result, hf]
      have hmemf : ∀ x ∈ a :: l, x ∈ rows ∧ x.videoId = vid := by
        intro x hx
        have hxf : x ∈ rows.filter (fun r => r.videoId == vid) := by
          rw [hf]; exact hx
        have h2 := List.mem_filter.mp hxf
        exact ⟨h2.1, by simpa using h2.2⟩
      have hple := pickLatest_ge l a
      have hmem : pickLatest a l ∈ a :: l := by
        rcases pickLatest_mem l a with h | h
        · rw [h]; exact List.mem_cons_self a l
        · exact List.mem_cons_of_mem _ h
      refine ⟨(hmemf _ hmem).1, (hmemf _ hmem).2, ?_⟩
      intro r hr hv
      have hrf : r ∈ a :: l := by
        have hmf : r ∈ rows.filter (fun r => r.videoId == vid) :=
          List.mem_filter.mpr ⟨hr, by simp [hv]⟩
        rwa [hf] at hmf
      rcases List.mem_cons.mp hrf with rfl | hrl
      · exact hple.1
      · exact hple.2 r hrl

/-- Claim C10: cancel_processing records a cancellation only for an id
currently in the processing set and is a silent no-op otherwise; the
entry section of process_video never puts the waiting id into the
processing set, so a submission waiting in PENDING cannot be canceled;
and a job admitted with no flag set completes normally with FIX and an
unchanged cancellation set. -/
theorem cancel_only_for_processing (s : SchedState) (vid : Nat) :
    (vid ∉ s.processing → cancel_processing s vid = s)
    ∧ (vid ∈ s.processing →
        cancel_processing s vid
          = { s with cancelRequested := setInsert s.cancelRequested vid })
    ∧ (∀ path, (process_video_entry s path).1.processing = s.processing)
    ∧ (∀ result : RawMap, vid ∉ s.cancelRequested →
        video_status s.db vid ≠ none →
        (process_video_run s vid (Except.ok result)).2.2 = Except.ok true
        ∧ video_status (process_video_run s vid (Except.ok result)).1.db vid
            = some "FIX"
        ∧ (process_video_run s vid (Except.ok result)).1.cancelRequested
            = s.cancelRequested) := by
  refine ⟨?_, ?_, ?_, ?_⟩
  · intro h
    rw [cancel_processing, if_neg h]
  · intro h
    rw [cancel_processing, if_pos h]
  · intro path
    rw [process_video_entry]
    dsimp only
    split
    · rfl
    · split <;> rfl
  · intro result hflag hrow
    obtain ⟨st0, hst0⟩ := Option.ne_none_iff_exists'.mp hrow
    refine ⟨?_, ?_, ?_⟩
    · simp only [process_video_run, process_video_inner]
      rw [if_neg hflag]
    · simp only [process_video_run, process_video_inner]
      rw [if_neg hflag]
      rw [video_status_update_self, video_status_add_analysis_result,
        video_status_add_tags, video_status_update_self,
        video_status_update_self, hst0]
      rfl
    · simp only [process_video_run, process_video_inner]
      rw [if_neg hflag]

/-- Witness for C10: canceling a non-processing id changes nothing, and
the unflagged concrete job completes with True/FIX. -/
theorem cancel_only_for_processing_witness :
    cancel_processing sEx 1 = sEx
    ∧ (process_video_run sEx 1 (Except.ok exMap)).2.2 = Except.ok true
    ∧ video_status (process_video_run sEx 1 (Except.ok exMap)).1.db 1
        = some "FIX" := by
  have h := cancel_only_for_processing sEx 1
  have h4 := h.2.2.2 exMap (by decide) (by decide)
  exact ⟨h.1 (by decide), h4.1, h4.2.1⟩

end MP4Spec


